import Mathlib

/-
Verification development for the MealTracker notification scheduling engine.

The definitions below are a shallow embedding of the server-side code:
  - server/push-service.ts        (sendPushNotification)
  - server/storage.ts             (MemStorage, in-memory path)
  - server/routes.ts              (POST /api/push/subscribe handler, language-aware revision)
  - shared/notifications.ts       (getNotificationText)
  - server/scheduler.ts           (startNotificationScheduler: the main revision with
                                   quiet hours + daily reminder, and the hourly-reminder
                                   variant revision with default quiet hours 22-8 and a
                                   fixed one-hour cooldown)

Timestamps are modelled as integers (milliseconds, local frame), so that
Date truncation with setHours(0,0,0,0) becomes flooring to a multiple of a day.
JavaScript Math.floor on a real quotient of integers is Int.fdiv (floor division).
JavaScript truthiness checks on numbers (0 is falsy) are modelled explicitly.
-/

set_option autoImplicit false

/-- One row of the push_subscriptions table (shared/schema.ts together with the
migration that adds the nullable language column, default 'en').  The in-memory
store path of MemStorage never materialises createdAt, and no engine code reads
it, so it is omitted.  Nullable columns are Option. -/
structure PushSubscription where
  id : String
  endpoint : String
  keys : String
  lastMealTime : Option Int
  lastDailyReminder : Option Int
  quietHoursStart : Option Int
  quietHoursEnd : Option Int
  language : Option String
  deriving Repr, DecidableEq

/-- PushNotificationPayload from server/push-service.ts.  The optional `data`
field is never set by the engine and is omitted. -/
structure PushNotificationPayload where
  title : String
  body : String
  icon : Option String
  badge : Option String
  silent : Option Bool
  badgeCount : Option Int
  deriving Repr, DecidableEq

/-- 3 * 60 * 60 * 1000 from the scheduler. -/
def THREE_HOURS_MS : Int := 3 * 60 * 60 * 1000

/-- 60 * 60 * 1000: one hour of milliseconds (the divisor in the hoursAgo
computations, and ONE_HOUR_MS in the hourly-reminder variant). -/
def HOUR_MS : Int := 60 * 60 * 1000

/-- One day of milliseconds, for the setHours(0,0,0,0) truncation. -/
def DAY_MS : Int := 24 * 60 * 60 * 1000

/-- Date.setHours(0,0,0,0): truncate a local-frame millisecond timestamp to the
preceding local midnight. -/
def dayStart (t : Int) : Int := (t.fdiv DAY_MS) * DAY_MS

/-- isInQuietHours(subscription) from the main scheduler revision: null bounds
never suppress; an equal or out-of-range pair logs a warning and returns false;
a window that spans midnight (start > end) matches currentHour >= start or
currentHour < end; otherwise start <= currentHour < end.  The source reads the
current hour from the clock; it is passed in here. -/
def isInQuietHours (s : PushSubscription) (currentHour : Int) : Bool :=
  match s.quietHoursStart, s.quietHoursEnd with
  | some start, some endHour =>
    if start = endHour ∨ start < 0 ∨ start > 23 ∨ endHour < 0 ∨ endHour > 23 then
      false
    else if start > endHour then
      decide (currentHour ≥ start ∨ currentHour < endHour)
    else
      decide (currentHour ≥ start ∧ currentHour < endHour)
  | _, _ => false

/-- isInQuietHours(quietStart, quietEnd) from the hourly-reminder variant
revision: takes plain numbers, performs no null or range validation. -/
def isInQuietHoursVariant (quietStart quietEnd currentHour : Int) : Bool :=
  if quietStart > quietEnd then
    decide (currentHour ≥ quietStart ∨ currentHour < quietEnd)
  else
    decide (currentHour ≥ quietStart ∧ currentHour < quietEnd)

/-- One entry of notificationTranslations (shared/notifications.ts): a title and
a body template over the hour count. -/
structure NotificationTranslationEntry where
  title : String
  body : Int → String

/-- The fixed three-entry translation table of shared/notifications.ts, as a
total function on the already-validated language code (getNotificationText only
ever indexes it with en, de or es; the final branch is the en entry). -/
def notificationTranslations (lang : String) : NotificationTranslationEntry :=
  if lang = "de" then
    ⟨"Mealtracker Erinnerung", fun hours => "Letzte Mahlzeit war vor " ++ toString hours ++ " Stunden"⟩
  else if lang = "es" then
    ⟨"Recordatorio Mealtracker", fun hours => "Última comida fue hace " ++ toString hours ++ " horas"⟩
  else
    ⟨"Mealtracker Reminder", fun hours => "Last meal was " ++ toString hours ++ " hours ago"⟩

/-- Return type of getNotificationText. -/
structure NotificationText where
  title : String
  body : String
  deriving Repr, DecidableEq

/-- getNotificationText from shared/notifications.ts: clamp the language to the
supported set (anything else, including null and undefined, becomes en), then
look up the table and interpolate the hour count into the body template. -/
def getNotificationText (language : Option String) (hours : Int) : NotificationText :=
  let lang := match language with
    | some l => if l = "en" ∨ l = "de" ∨ l = "es" then l else "en"
    | none => "en"
  let translations := notificationTranslations lang
  ⟨translations.title, translations.body hours⟩

/-- Outcome of the underlying webpush.sendNotification call (plus the JSON.parse
of the stored keys, which can also throw): either the payload was delivered, or
an error was thrown carrying an optional numeric statusCode (a parse error or a
non-HTTP failure carries none). -/
inductive TransportOutcome where
  | delivered
  | thrown (statusCode : Option Int)
  deriving Repr, DecidableEq

/-- sendPushNotification from server/push-service.ts: return true on success;
inside the catch, re-throw exactly when error.statusCode === 410, otherwise log
and return false.  The thrown error is modelled as Except.error carrying the
status code. -/
def sendPushNotification (transport : TransportOutcome) : Except (Option Int) Bool :=
  match transport with
  | .delivered => .ok true
  | .thrown statusCode =>
    if statusCode = some 410 then .error statusCode else .ok false

/-- In-memory store of push subscriptions: the MemStorage pushSubs Map, keyed by
endpoint, in insertion order. -/
abbrev PushStore := List (String × PushSubscription)

/-- The in-memory send-history Map of the scheduler (subscription id to the
timestamp of the last interval-reminder send). -/
abbrev SendHistory := List (String × Int)

/-- JavaScript Map.set semantics: replace the value at an existing key in place,
otherwise append the binding at the end. -/
def jsMapSet {β : Type} (m : List (String × β)) (k : String) (v : β) : List (String × β) :=
  if m.any (fun p => p.1 == k) then
    m.map (fun p => if p.1 == k then (k, v) else p)
  else
    m ++ [(k, v)]

/-- Map.get: the value at the key, if present (first binding wins, as keys are
unique in a Map). -/
def jsMapGet {β : Type} (m : List (String × β)) (k : String) : Option β :=
  match m with
  | [] => none
  | p :: rest => if p.1 == k then some p.2 else jsMapGet rest k

/-- MemStorage.getAllPushSubscriptions (in-memory path): the Map values in
insertion order. -/
def getAllPushSubscriptions (store : PushStore) : List PushSubscription :=
  store.map (fun p => p.2)

/-- MemStorage.getPushSubscriptionByEndpoint (in-memory path). -/
def getPushSubscriptionByEndpoint (store : PushStore) (endpoint : String) : Option PushSubscription :=
  jsMapGet store endpoint

/-- MemStorage.deletePushSubscription (in-memory path): Map.delete by endpoint. -/
def deletePushSubscription (store : PushStore) (endpoint : String) : PushStore :=
  store.filter (fun p => ¬ p.1 == endpoint)

/-- The fields of an InsertPushSubscription (insert schema: the table without id
and createdAt). -/
structure InsertPushSubscription where
  endpoint : String
  keys : String
  lastMealTime : Option Int
  lastDailyReminder : Option Int
  quietHoursStart : Option Int
  quietHoursEnd : Option Int
  language : Option String
  deriving Repr, DecidableEq

/-- MemStorage.createPushSubscription (in-memory path): build the record with a
fresh random id and Map.set it under its endpoint. -/
def createPushSubscription (store : PushStore) (sub : InsertPushSubscription)
    (freshId : String) : PushStore × PushSubscription :=
  let created : PushSubscription :=
    { id := freshId, endpoint := sub.endpoint, keys := sub.keys,
      lastMealTime := sub.lastMealTime, lastDailyReminder := sub.lastDailyReminder,
      quietHoursStart := sub.quietHoursStart, quietHoursEnd := sub.quietHoursEnd,
      language := sub.language }
  (jsMapSet store created.endpoint created, created)

/-- A Partial of the insert fields, as passed to updatePushSubscription: the
outer Option is key presence in the partial object.  The handlers never place
endpoint in the partial, so it is absent here. -/
structure SubscriptionUpdate where
  keys : Option String
  lastMealTime : Option (Option Int)
  lastDailyReminder : Option (Option Int)
  quietHoursStart : Option (Option Int)
  quietHoursEnd : Option (Option Int)
  language : Option (Option String)
  deriving Repr, DecidableEq

/-- The object spread of the update data over the stored item. -/
def applyUpdate (s : PushSubscription) (d : SubscriptionUpdate) : PushSubscription :=
  { id := s.id, endpoint := s.endpoint,
    keys := d.keys.getD s.keys,
    lastMealTime := d.lastMealTime.getD s.lastMealTime,
    lastDailyReminder := d.lastDailyReminder.getD s.lastDailyReminder,
    quietHoursStart := d.quietHoursStart.getD s.quietHoursStart,
    quietHoursEnd := d.quietHoursEnd.getD s.quietHoursEnd,
    language := d.language.getD s.language }

/-- Array.from(pushSubs.values()).find(s => s.id === id): the first binding
whose stored record has the given id (Map values iterate in insertion order). -/
def findById (store : PushStore) (id : String) : Option (String × PushSubscription) :=
  match store with
  | [] => none
  | p :: rest => if p.2.id == id then some p else findById rest id

/-- MemStorage.updatePushSubscription (in-memory path): find the first stored
value whose id matches, spread the partial over it, and Map.set the result under
its endpoint; an unknown id leaves the store unchanged. -/
def updatePushSubscription (store : PushStore) (id : String) (d : SubscriptionUpdate) : PushStore :=
  match findById store id with
  | none => store
  | some p =>
    let updated := applyUpdate p.2 d
    jsMapSet store updated.endpoint updated

/-- The body of POST /api/push/subscribe after schema validation, with the
handler's language default already applied (language: req.body.language ?? 'en'). -/
structure SubscribeRequest where
  endpoint : String
  keys : String
  lastMealTime : Option Int
  quietHoursStart : Option Int
  quietHoursEnd : Option Int
  language : Option String
  deriving Repr, DecidableEq

/-- The POST /api/push/subscribe handler (language-aware revision): look up by
endpoint; if a record exists, update it by id with the new keys, meal time,
quiet hours and language; otherwise create a new record with a fresh id. -/
def subscribe (store : PushStore) (r : SubscribeRequest) (freshId : String) : PushStore :=
  let validatedLanguage : Option String := some (r.language.getD "en")
  match getPushSubscriptionByEndpoint store r.endpoint with
  | some existing =>
    updatePushSubscription store existing.id
      { keys := some r.keys, lastMealTime := some r.lastMealTime,
        lastDailyReminder := none,
        quietHoursStart := some r.quietHoursStart,
        quietHoursEnd := some r.quietHoursEnd,
        language := some validatedLanguage }
  | none =>
    (createPushSubscription store
      { endpoint := r.endpoint, keys := r.keys, lastMealTime := r.lastMealTime,
        lastDailyReminder := none, quietHoursStart := r.quietHoursStart,
        quietHoursEnd := r.quietHoursEnd, language := validatedLanguage }
      freshId).1

/-- The record the subscribe handler creates for a fresh endpoint: the insert
fields of the request with the fresh id (the body createPushSubscription builds
on the create path). -/
def subscribedRecord (r : SubscribeRequest) (freshId : String) : PushSubscription :=
  { id := freshId, endpoint := r.endpoint, keys := r.keys, lastMealTime := r.lastMealTime,
    lastDailyReminder := none, quietHoursStart := r.quietHoursStart,
    quietHoursEnd := r.quietHoursEnd, language := some (r.language.getD "en") }

/-- The visible interval-reminder payload built by the main scheduler: fixed
German title, the unclamped hour count interpolated into a fixed German body,
and the clamped hour count as badgeCount. -/
def mkIntervalReminderPayload (hoursAgoRaw hoursAgo : Int) : PushNotificationPayload :=
  { title := "Mealtracker Erinnerung",
    body := "Letzte Mahlzeit war vor " ++ toString hoursAgoRaw ++ " Stunden",
    icon := some "/icon-192.png", badge := some "/icon-192.png",
    silent := none, badgeCount := some hoursAgo }

/-- The per-subscription decision of Pass A (hourly badge sync) in the main
scheduler: skip when lastMealTime is falsy (null or 0), otherwise send a silent
payload whose badgeCount is the floored elapsed hour count clamped at 99. -/
def passABadge (now : Int) (s : PushSubscription) : Option PushNotificationPayload :=
  match s.lastMealTime with
  | none => none
  | some lastMealTime =>
    if lastMealTime = 0 then none
    else
      let timeSinceLastMeal := now - lastMealTime
      let hoursAgo := min (timeSinceLastMeal.fdiv HOUR_MS) 99
      some { title := "", body := "", icon := none, badge := none,
             silent := some true, badgeCount := some hoursAgo }

/-- The per-subscription decision of Pass B (interval reminder, every five
minutes) in the main scheduler: skip when lastMealTime is falsy, when in quiet
hours, when under the three-hour threshold, or when a truthy send-history entry
is younger than three hours; otherwise the payload that is sent.  The clock
reads (Date.now() and the current hour) are passed in. -/
def passBDecision (hist : SendHistory) (now currentHour : Int)
    (s : PushSubscription) : Option PushNotificationPayload :=
  match s.lastMealTime with
  | none => none
  | some lastMealTime =>
    if lastMealTime = 0 then none
    else if isInQuietHours s currentHour then none
    else
      let timeSinceLastMeal := now - lastMealTime
      let hoursAgoRaw := timeSinceLastMeal.fdiv HOUR_MS
      let hoursAgo := min hoursAgoRaw 99
      if timeSinceLastMeal < THREE_HOURS_MS then none
      else
        match jsMapGet hist s.id with
        | some lastSent =>
          if lastSent ≠ 0 ∧ now - lastSent < THREE_HOURS_MS then none
          else some (mkIntervalReminderPayload hoursAgoRaw hoursAgo)
        | none => some (mkIntervalReminderPayload hoursAgoRaw hoursAgo)

/-- The per-subscription decision of the hourly-reminder variant revision: like
Pass B, but missing quiet-hours bounds default to 22 and 8 (the ?? operator)
before evaluation, and the send-history cooldown is a fixed one hour instead of
the three-hour threshold. -/
def hourlyReminderDecision (hist : SendHistory) (now currentHour : Int)
    (s : PushSubscription) : Option PushNotificationPayload :=
  match s.lastMealTime with
  | none => none
  | some lastMealTime =>
    if lastMealTime = 0 then none
    else
      let quietStart := s.quietHoursStart.getD 22
      let quietEnd := s.quietHoursEnd.getD 8
      if isInQuietHoursVariant quietStart quietEnd currentHour then none
      else
        let timeSinceLastMeal := now - lastMealTime
        let hoursAgoRaw := timeSinceLastMeal.fdiv HOUR_MS
        let hoursAgo := min hoursAgoRaw 99
        if timeSinceLastMeal < THREE_HOURS_MS then none
        else
          match jsMapGet hist s.id with
          | some lastSent =>
            if lastSent ≠ 0 ∧ now - lastSent < HOUR_MS then none
            else some
              { title := "Mealtracker Reminder",
                body := "Last meal was " ++ toString hoursAgoRaw ++ " hours ago",
                icon := some "/icon-192.png", badge := some "/icon-192.png",
                silent := none, badgeCount := some hoursAgo }
          | none => some
              { title := "Mealtracker Reminder",
                body := "Last meal was " ++ toString hoursAgoRaw ++ " hours ago",
                icon := some "/icon-192.png", badge := some "/icon-192.png",
                silent := none, badgeCount := some hoursAgo }

/-- The per-subscription decision of Pass C (daily reminder at 9:00) in the main
scheduler: skip when in quiet hours, or when the stored lastDailyReminder
truncated to local midnight is at least today's local midnight; otherwise send
the fixed generic reminder. -/
def passCDecision (now currentHour : Int) (s : PushSubscription) : Bool :=
  if isInQuietHours s currentHour then false
  else
    match s.lastDailyReminder with
    | some lastReminder => if dayStart lastReminder ≥ dayStart now then false else true
    | none => true

/-- The state change Pass C applies to one subscription: when the reminder was
due and the send succeeded, persist lastDailyReminder = now through the store
update; in every other case the record is untouched. -/
def passCApply (now currentHour : Int) (sendOk : Bool) (s : PushSubscription) : PushSubscription :=
  if passCDecision now currentHour s && sendOk then
    { s with lastDailyReminder := some now }
  else s

/-- The state the scheduler touches: the subscription store and the in-memory
send-history map. -/
structure SchedulerState where
  store : PushStore
  hist : SendHistory

/-- The Pass B loop body of the main scheduler over the getAll() snapshot.  Each
iteration evaluates one subscription; a successful send records now in the
send-history; a send that returns false changes nothing; a thrown error (the
410 re-throw of sendPushNotification) propagates out of the for-loop to the
pass-level catch, which only logs - so the remaining subscriptions of the
snapshot are not processed and the history mutations so far are kept.  The
transport behaviour of each endpoint is the outcomes argument, keyed by
subscription id. -/
def passBLoop (outcomes : String → TransportOutcome) (now currentHour : Int) :
    SendHistory → List PushSubscription → SendHistory
  | hist, [] => hist
  | hist, s :: rest =>
    match passBDecision hist now currentHour s with
    | none => passBLoop outcomes now currentHour hist rest
    | some _payload =>
      match sendPushNotification (outcomes s.id) with
      | .ok true => passBLoop outcomes now currentHour (jsMapSet hist s.id now) rest
      | .ok false => passBLoop outcomes now currentHour hist rest
      | .error _ => hist

/-- One invocation of the Pass B cron callback: read the getAll() snapshot, run
the loop.  The callback contains no store write at all (in particular no
deletePushSubscription call), so the store component passes through unchanged. -/
def passBRun (outcomes : String → TransportOutcome) (now currentHour : Int)
    (st : SchedulerState) : SchedulerState :=
  { store := st.store,
    hist := passBLoop outcomes now currentHour st.hist (getAllPushSubscriptions st.store) }

/-- The state-threading form of sendPushNotification: push-service.ts imports
only web-push and never references the storage module, so the subscription
store passes through any call unchanged. -/
def sendPushNotificationWithStore (store : PushStore) (transport : TransportOutcome) :
    Except (Option Int) Bool × PushStore :=
  (sendPushNotification transport, store)

/-- A subscription with no quiet hours configured and a meal four hours back
(relative to the evaluation instants used with it). -/
def unconfiguredQuietSub : PushSubscription :=
  { id := "sub-q", endpoint := "ep-q", keys := "k", lastMealTime := some 1,
    lastDailyReminder := none, quietHoursStart := none, quietHoursEnd := none,
    language := none }

/-- An English-language subscription eligible for the interval reminder. -/
def englishSub : PushSubscription :=
  { id := "sub-en", endpoint := "ep-en", keys := "k", lastMealTime := some 1,
    lastDailyReminder := none, quietHoursStart := none, quietHoursEnd := none,
    language := some "en" }

/-- An eligible subscription whose endpoint the transport reports expired. -/
def expiredSub : PushSubscription :=
  { id := "sub-x", endpoint := "ep-x", keys := "k", lastMealTime := some 1,
    lastDailyReminder := none, quietHoursStart := none, quietHoursEnd := none,
    language := none }

/-- A second eligible subscription, iterated after expiredSub in the snapshot. -/
def afterExpiredSub : PushSubscription :=
  { id := "sub-y", endpoint := "ep-y", keys := "k", lastMealTime := some 1,
    lastDailyReminder := none, quietHoursStart := none, quietHoursEnd := none,
    language := none }

/-- Transport behaviour for the partial-failure scenario: expiredSub's endpoint
throws 410, everything else delivers. -/
def expiredThenOkOutcomes : String → TransportOutcome :=
  fun id => if id == "sub-x" then .thrown (some 410) else .delivered

/-- Helper: any payload Pass B returns is the fixed interval-reminder payload
built from the floored elapsed hour count and its clamp at 99. -/
theorem passBDecision_payload_shape
  (hist : SendHistory) (now currentHour : Int) (s : PushSubscription) (m : Int)
  (p : PushNotificationPayload)
  (hm : s.lastMealTime = some m)
  (hp : passBDecision hist now currentHour s = some p) :
  p = mkIntervalReminderPayload ((now - m).fdiv HOUR_MS) (min ((now - m).fdiv HOUR_MS) 99) := by
  unfold passBDecision at hp
  simp only [hm] at hp
  split at hp
  · exact absurd hp (by simp)
  · split at hp
    · exact absurd hp (by simp)
    · split at hp
      · exact absurd hp (by simp)
      · split at hp
        · split at hp
          · exact absurd hp (by simp)
          · exact (Option.some_inj.mp hp).symm
        · exact (Option.some_inj.mp hp).symm

/-- Helper: when a key is absent from a JS map, every stored key differs from it. -/
theorem jsMapGet_none_all_keys_ne {β : Type} (m : List (String × β)) (k : String)
    (h : jsMapGet m k = none) : ∀ p ∈ m, (p.1 == k) = false := by
  induction m with
  | nil => intro p hp; cases hp
  | cons q rest ih =>
    intro p hp
    unfold jsMapGet at h
    cases hq : (q.1 == k) with
    | true => rw [if_pos hq] at h; cases h
    | false =>
      rw [if_neg (by simp [hq])] at h
      rcases List.mem_cons.mp hp with rfl | hp2
      · exact hq
      · exact ih h p hp2

/-- Helper: Map.set on an absent key appends the binding. -/
theorem jsMapSet_fresh {β : Type} (m : List (String × β)) (k : String) (v : β)
    (h : jsMapGet m k = none) : jsMapSet m k v = m ++ [(k, v)] := by
  unfold jsMapSet
  rw [if_neg ?hany]
  case hany =>
    rw [List.any_eq_true]
    rintro ⟨p, hp, hpk⟩
    rw [jsMapGet_none_all_keys_ne m k h p hp] at hpk
    cases hpk

/-- Helper: Map.get finds a binding appended behind keys that all differ. -/
theorem jsMapGet_append_self {β : Type} (m : List (String × β)) (k : String) (v : β)
    (h : jsMapGet m k = none) : jsMapGet (m ++ [(k, v)]) k = some v := by
  induction m with
  | nil => simp [jsMapGet]
  | cons q rest ih =>
    have h2 : (if (q.1 == k) = true then some q.2 else jsMapGet rest k) = none := h
    rw [List.cons_append]
    show (if (q.1 == k) = true then some q.2 else jsMapGet (rest ++ [(k, v)]) k) = some v
    cases hq : (q.1 == k) with
    | true => rw [if_pos hq] at h2; cases h2
    | false =>
      rw [if_neg (by simp [hq])] at h2
      rw [if_neg (by simp [hq])]
      exact ih h2

/-- Helper: the find-by-id scan reaches a binding appended behind records whose
ids all differ. -/
theorem findById_append_self (m : PushStore) (id1 : String) (q : String × PushSubscription)
    (h : ∀ p ∈ m, p.2.id ≠ id1) (hq : q.2.id = id1) : findById (m ++ [q]) id1 = some q := by
  induction m with
  | nil => simp [findById, hq]
  | cons p rest ih =>
    rw [List.cons_append]
    show (if (p.2.id == id1) = true then some p else findById (rest ++ [q]) id1) = some q
    rw [if_neg (by simp only [beq_iff_eq]; exact h p (List.mem_cons_self p rest))]
    exact ih (fun p hp => h p (List.mem_cons_of_mem _ hp))

/-- Helper: Map.set replaces in place the unique binding of its key. -/
theorem jsMapSet_append_replace {β : Type} (m : List (String × β)) (k : String) (r u : β)
    (hnone : ∀ p ∈ m, (p.1 == k) = false) :
    jsMapSet (m ++ [(k, r)]) k u = m ++ [(k, u)] := by
  unfold jsMapSet
  rw [if_pos ?hany]
  case hany =>
    rw [List.any_eq_true]
    exact ⟨(k, r), by simp, by simp⟩
  rw [List.map_append]
  congr 1
  · induction m with
    | nil => rfl
    | cons p rest ih =>
      simp only [List.map_cons]
      rw [if_neg (by simp [hnone p (List.mem_cons_self p rest)])]
      rw [ih (fun q hq => hnone q (List.mem_cons_of_mem _ hq))]
  · simp

/-- Claim C1: a Pass B evaluation in which the transport reports the endpoint
permanently expired (410, hence sendPushNotification throws) leaves the store
untouched: the cron callback contains no deletePushSubscription call, its
pass-level catch only logs, so the expired subscription is still returned by
the next getAll().  The first conjunct shows the send was actually attempted,
the second that the transport outcome was the re-thrown 410, contradicting the
documented and specified immediate deletion. -/
theorem expired_subscription_survives_pass :
  (passBDecision [] (THREE_HOURS_MS + 1) 12 expiredSub).isSome = true
  ∧ sendPushNotification (TransportOutcome.thrown (some 410)) = Except.error (some 410)
  ∧ getAllPushSubscriptions
      (passBRun (fun _ => TransportOutcome.thrown (some 410)) (THREE_HOURS_MS + 1) 12
        ⟨[("ep-x", expiredSub)], []⟩).store = [expiredSub] :=
  ⟨by rfl, rfl, by rfl⟩

/-- Claim C2: for unequal in-range bounds, the quiet-hours evaluator of the main
scheduler matches the specified window semantics: a same-day window start < end
suppresses exactly when start <= now < end, and a window spanning midnight
start > end suppresses exactly when now >= start or now < end. -/
theorem isInQuietHours_window_spec
  (s : PushSubscription) (start endHour now : Int)
  (hqs : s.quietHoursStart = some start) (hqe : s.quietHoursEnd = some endHour)
  (hs0 : 0 ≤ start) (hs23 : start ≤ 23) (he0 : 0 ≤ endHour) (he23 : endHour ≤ 23)
  (hne : start ≠ endHour) :
  (start < endHour → (isInQuietHours s now = true ↔ (start ≤ now ∧ now < endHour)))
  ∧ (endHour < start → (isInQuietHours s now = true ↔ (now ≥ start ∨ now < endHour))) := by
  unfold isInQuietHours
  simp only [hqs, hqe]
  constructor
  · intro hlt
    rw [if_neg (by omega), if_neg (by omega : ¬ start > endHour)]
    simp only [decide_eq_true_eq]
  · intro hgt
    rw [if_neg (by omega), if_pos (by omega : start > endHour)]
    simp only [decide_eq_true_eq]

/-- Witness for C2: the 22-8 midnight-spanning window suppresses at hour 23. -/
theorem isInQuietHours_window_spec_witness :
  isInQuietHours ⟨"i", "e", "k", none, none, some 22, some 8, none⟩ 23 = true := by
  have h := (isInQuietHours_window_spec ⟨"i", "e", "k", none, none, some 22, some 8, none⟩
    22 8 23 rfl rfl (by norm_num) (by norm_num) (by norm_num) (by norm_num) (by norm_num)).2
    (by norm_num)
  exact h.mpr (Or.inl (by norm_num))

/-- Counterexample for C3: in the hourly-reminder variant revision, a
subscription with both quiet-hours bounds null is treated as being in the
defaulted 22-8 window: at hour 23 the otherwise-eligible subscription is
skipped, while at hour 12 it would send - so the scheduler of that revision
does treat an unconfigured subscription as being in quiet hours. -/
theorem quiet_hours_default_counterexample :
  unconfiguredQuietSub.quietHoursStart = none
  ∧ unconfiguredQuietSub.quietHoursEnd = none
  ∧ hourlyReminderDecision [] (4 * HOUR_MS) 23 unconfiguredQuietSub = none
  ∧ (hourlyReminderDecision [] (4 * HOUR_MS) 12 unconfiguredQuietSub).isSome = true
  ∧ isInQuietHoursVariant 22 8 23 = true :=
  ⟨rfl, rfl, by rfl, by rfl, by decide⟩

/-- Claim C3 (amended): the quiet-hours evaluator of the main scheduler returns
false, as a total function that cannot raise, on every input outside the valid
domain: a null bound, equal bounds, or a bound outside 0..23; hence that
scheduler never treats a subscription without a configured pair as being in
quiet hours.  (The hourly variant instead substitutes the 22-8 default, see the
counterexample.) -/
theorem isInQuietHours_invalid_defensive
  (s : PushSubscription) (h : Int)
  (hinv : s.quietHoursStart = none ∨ s.quietHoursEnd = none
      ∨ ∃ a b, s.quietHoursStart = some a ∧ s.quietHoursEnd = some b ∧
          (a = b ∨ a < 0 ∨ a > 23 ∨ b < 0 ∨ b > 23)) :
  isInQuietHours s h = false := by
  unfold isInQuietHours
  rcases hinv with h1 | h1 | ⟨a, b, ha, hb, hbad⟩
  · simp only [h1]
  · simp only [h1]
    rcases s.quietHoursStart with _ | a <;> rfl
  · simp only [ha, hb]
    rw [if_pos hbad]

/-- Witness for the amended C3: a subscription with no quiet hours configured is
never in quiet hours in the main scheduler. -/
theorem isInQuietHours_invalid_defensive_witness :
  isInQuietHours unconfiguredQuietSub 23 = false :=
  isInQuietHours_invalid_defensive unconfiguredQuietSub 23 (Or.inl rfl)

/-- Counterexample for C4: Pass B sends the fixed German title to a subscription
whose stored language is en, while the Notification Text Resolver applied to
that language yields the English title - so Pass B does not resolve its text
through the resolver with the subscription language. -/
theorem passB_language_counterexample :
  englishSub.language = some "en"
  ∧ ((passBDecision [] (4 * HOUR_MS) 12 englishSub).map (fun p => p.title))
      = some "Mealtracker Erinnerung"
  ∧ (getNotificationText englishSub.language (((4 * HOUR_MS) - 1).fdiv HOUR_MS)).title
      = "Mealtracker Reminder"
  ∧ ("Mealtracker Erinnerung" : String) ≠ "Mealtracker Reminder" :=
  ⟨rfl, by rfl, by rfl, by decide⟩

/-- Claim C4 (amended): every visible notification Pass B emits carries the
fixed German text - the de entry of the translation table with the raw elapsed
hour count interpolated - regardless of the subscription language;
getNotificationText is defined in shared code but never invoked by the
scheduler. -/
theorem passB_text_fixed_german
  (hist : SendHistory) (now h : Int) (s : PushSubscription) (m : Int)
  (p : PushNotificationPayload)
  (hm : s.lastMealTime = some m)
  (hp : passBDecision hist now h s = some p) :
  p.title = (getNotificationText (some "de") ((now - m).fdiv HOUR_MS)).title
  ∧ p.body = (getNotificationText (some "de") ((now - m).fdiv HOUR_MS)).body := by
  rw [passBDecision_payload_shape hist now h s m p hm hp]
  exact ⟨rfl, rfl⟩

/-- Witness for the amended C4 at a concrete eligible subscription. -/
theorem passB_text_fixed_german_witness :
  (mkIntervalReminderPayload 3 3).title
    = (getNotificationText (some "de") (((4 * HOUR_MS) - 1).fdiv HOUR_MS)).title :=
  (passB_text_fixed_german [] (4 * HOUR_MS) 12 englishSub 1 (mkIntervalReminderPayload 3 3)
    rfl (by rfl)).1

/-- Counterexample for C5: with two eligible subscriptions in the snapshot, the
first of which the transport reports expired (so the send throws) and the
second of which would deliver, the pass records nothing for the second
subscription: the throw escapes the for-loop to the pass-level catch, so
iteration does NOT continue with the next subscription. -/
theorem passB_throw_aborts_pass_counterexample :
  (passBRun expiredThenOkOutcomes (THREE_HOURS_MS + 1) 12
      ⟨[("ep-x", expiredSub), ("ep-y", afterExpiredSub)], []⟩).hist = []
  ∧ (passBDecision [] (THREE_HOURS_MS + 1) 12 afterExpiredSub).isSome = true
  ∧ sendPushNotification (expiredThenOkOutcomes afterExpiredSub.id) = Except.ok true :=
  ⟨by rfl, by rfl, by rfl⟩

/-- Claim C5 (amended): a send failure that sendPushNotification reports as a
false return (any non-410 failure, already caught and logged inside the
wrapper) does not abort the pass: the loop continues with the next subscription
and an unchanged history; but an exception thrown by the send (the 410
re-throw) aborts processing of the remaining subscriptions of that tick, being
caught and logged only at the pass level. -/
theorem passB_error_containment :
  (∀ outcomes now h hist s rest b,
     sendPushNotification (outcomes s.id) = Except.ok b →
     passBLoop outcomes now h hist (s :: rest) =
       passBLoop outcomes now h
         (match passBDecision hist now h s with
          | some _p => if b then jsMapSet hist s.id now else hist
          | none => hist) rest)
  ∧ (∀ outcomes now h hist s rest e p,
       sendPushNotification (outcomes s.id) = Except.error e →
       passBDecision hist now h s = some p →
       passBLoop outcomes now h hist (s :: rest) = hist) := by
  constructor
  · intro outcomes now h hist s rest b hok
    simp only [passBLoop]
    cases hdec : passBDecision hist now h s with
    | none => rfl
    | some p =>
      rw [hok]
      cases b <;> rfl
  · intro outcomes now h hist s rest e p herr hdec
    simp only [passBLoop, hdec, herr]

/-- Witness for the amended C5: the thrown 410 on the first subscription ends
the loop with the history unchanged. -/
theorem passB_error_containment_witness :
  passBLoop (fun _ => TransportOutcome.thrown (some 410)) (THREE_HOURS_MS + 1) 12 []
      [expiredSub, afterExpiredSub] = [] :=
  passB_error_containment.2 (fun _ => TransportOutcome.thrown (some 410)) (THREE_HOURS_MS + 1) 12
    [] expiredSub [afterExpiredSub] (some 410) (mkIntervalReminderPayload 3 3) (by rfl) (by rfl)

/-- Counterexample for C6: in the hourly-reminder variant revision the cooldown
is a fixed one hour, so for a subscription over the three-hour threshold with a
send recorded at T, a second send is already issued at an evaluation tick with
now - T equal to two hours, strictly inside the threshold window. -/
theorem hourly_variant_cooldown_counterexample :
  (hourlyReminderDecision [("sub-q", THREE_HOURS_MS + 1)] (5 * HOUR_MS + 1) 12
      unconfiguredQuietSub).isSome = true
  ∧ (5 * HOUR_MS + 1) - (THREE_HOURS_MS + 1) < THREE_HOURS_MS
  ∧ (5 * HOUR_MS + 1) - 1 ≥ THREE_HOURS_MS :=
  ⟨by rfl, by norm_num [THREE_HOURS_MS, HOUR_MS], by norm_num [THREE_HOURS_MS, HOUR_MS]⟩

/-- Claim C6 (amended): in the main five-minute scheduler the interval-reminder
throttle window is the full three-hour threshold: with a truthy send-history
entry T, no send happens at a tick with now - T below the threshold; and at a
tick with now - T at or past the threshold the reminder is sent, provided the
subscription is still over the meal threshold and not in quiet hours.  (The
hourly variant revision instead uses a fixed one-hour cooldown, see the
counterexample.) -/
theorem passB_throttle_spec :
  (∀ hist now h s T, jsMapGet hist s.id = some T → T ≠ 0 →
     now - T < THREE_HOURS_MS → passBDecision hist now h s = none)
  ∧ (∀ hist now h s T m, s.lastMealTime = some m → m ≠ 0 →
       isInQuietHours s h = false → now - m ≥ THREE_HOURS_MS →
       jsMapGet hist s.id = some T → now - T ≥ THREE_HOURS_MS →
       (passBDecision hist now h s).isSome = true) := by
  constructor
  · intro hist now h s T hT hT0 hlt
    unfold passBDecision
    cases hlm : s.lastMealTime with
    | none => rfl
    | some m =>
      simp only [hT]
      split
      · rfl
      · split
        · rfl
        · split
          · rfl
          · rw [if_pos ⟨hT0, hlt⟩]
  · intro hist now h s T m hm hm0 hq hge hT hTge
    unfold passBDecision
    simp only [hm, hT]
    rw [if_neg hm0]
    rw [if_neg (by simp [hq])]
    rw [if_neg (by omega)]
    rw [if_neg (by rintro ⟨_, hlt⟩; omega)]
    rfl

/-- Witness for the amended C6: with a send recorded one millisecond into the
epoch, a tick two hours later is throttled and a tick seven hours later sends. -/
theorem passB_throttle_spec_witness :
  passBDecision [("sub-en", 1)] (2 * HOUR_MS) 12 englishSub = none
  ∧ (passBDecision [("sub-en", 1)] (7 * HOUR_MS) 12 englishSub).isSome = true :=
  ⟨passB_throttle_spec.1 [("sub-en", 1)] (2 * HOUR_MS) 12 englishSub 1 (by rfl) (by decide)
      (by norm_num [THREE_HOURS_MS, HOUR_MS]),
   passB_throttle_spec.2 [("sub-en", 1)] (7 * HOUR_MS) 12 englishSub 1 1 rfl (by decide)
      (by rfl) (by norm_num [THREE_HOURS_MS, HOUR_MS]) (by rfl)
      (by norm_num [THREE_HOURS_MS, HOUR_MS])⟩

/-- Claim C7: the daily reminder of Pass C fires at most once per calendar day -
after a successful send, any further evaluation on the same local calendar day
skips, however often the pass runs; the success persists lastDailyReminder =
now; on the next calendar day (local-midnight comparison, not a 24-hour
elapsed-duration comparison) it fires again when not in quiet hours; a
subscription in quiet hours at evaluation time is skipped with its record left
untouched, so nothing reschedules it for that day; and a skipped evaluation
never mutates the record. -/
theorem passC_once_per_calendar_day :
  (∀ s now1 h1 now2 h2, passCDecision now1 h1 s = true →
     dayStart now2 = dayStart now1 →
     passCDecision now2 h2 (passCApply now1 h1 true s) = false)
  ∧ (∀ s now h, passCDecision now h s = true →
      (passCApply now h true s).lastDailyReminder = some now)
  ∧ (∀ s now1 h1 now2 h2, passCDecision now1 h1 s = true →
      dayStart now1 < dayStart now2 →
      isInQuietHours s h2 = false →
      passCDecision now2 h2 (passCApply now1 h1 true s) = true)
  ∧ (∀ s now h ok, isInQuietHours s h = true →
      passCDecision now h s = false ∧ passCApply now h ok s = s)
  ∧ (∀ s now h ok, passCDecision now h s = false → passCApply now h ok s = s) := by
  refine ⟨?_, ?_, ?_, ?_, ?_⟩
  · intro s now1 h1 now2 h2 hdec hday
    have hA : passCApply now1 h1 true s = { s with lastDailyReminder := some now1 } := by
      unfold passCApply
      rw [hdec]
      rfl
    rw [hA]
    unfold passCDecision
    cases hq : isInQuietHours { s with lastDailyReminder := some now1 } h2 with
    | true => rfl
    | false =>
      rw [if_neg (by simp)]
      show (if dayStart now1 ≥ dayStart now2 then false else true) = false
      rw [if_pos (ge_of_eq hday.symm)]
  · intro s now h hdec
    unfold passCApply
    rw [hdec]
    rfl
  · intro s now1 h1 now2 h2 hdec hday hq
    have hA : passCApply now1 h1 true s = { s with lastDailyReminder := some now1 } := by
      unfold passCApply
      rw [hdec]
      rfl
    rw [hA]
    unfold passCDecision
    have hq2 : isInQuietHours { s with lastDailyReminder := some now1 } h2
        = isInQuietHours s h2 := rfl
    rw [hq2, hq]
    rw [if_neg (by simp)]
    show (if dayStart now1 ≥ dayStart now2 then false else true) = true
    rw [if_neg (not_le.mpr hday)]
  · intro s now h ok hq
    have hdec : passCDecision now h s = false := by
      unfold passCDecision
      rw [hq]
      rfl
    refine ⟨hdec, ?_⟩
    unfold passCApply
    rw [hdec]
    rfl
  · intro s now h ok hdec
    unfold passCApply
    rw [hdec]
    rfl

/-- Witness for C7: after a successful send at instant 100 of day zero, a second
run at instant 200 of the same day skips. -/
theorem passC_once_per_calendar_day_witness :
  passCDecision 200 10 (passCApply 100 9 true unconfiguredQuietSub) = false :=
  passC_once_per_calendar_day.1 unconfiguredQuietSub 100 9 200 10 (by rfl) (by rfl)

/-- Claim C8: subscribing twice with the same endpoint against a store that does
not yet hold that endpoint leaves exactly one record with that endpoint, with
the second request fields overwriting the first ones and the original id kept.
The store hypotheses state the Map invariants: keys equal the endpoints of
their records, and the fresh id of the first create is not already taken. -/
theorem subscribe_idempotent_endpoint
  (st : PushStore) (r1 r2 : SubscribeRequest) (id1 id2 : String)
  (hep : r2.endpoint = r1.endpoint)
  (hfresh : jsMapGet st r1.endpoint = none)
  (hkey : ∀ p ∈ st, p.1 = p.2.endpoint)
  (hid : ∀ p ∈ st, p.2.id ≠ id1) :
  (getAllPushSubscriptions (subscribe (subscribe st r1 id1) r2 id2)).filter
      (fun s => s.endpoint == r1.endpoint)
    = [{ id := id1, endpoint := r1.endpoint, keys := r2.keys,
         lastMealTime := r2.lastMealTime, lastDailyReminder := none,
         quietHoursStart := r2.quietHoursStart, quietHoursEnd := r2.quietHoursEnd,
         language := some (r2.language.getD "en") }] := by
  have hsub1 : subscribe st r1 id1 = st ++ [(r1.endpoint, subscribedRecord r1 id1)] := by
    unfold subscribe
    have hfresh2 : getPushSubscriptionByEndpoint st r1.endpoint = none := hfresh
    rw [hfresh2]
    exact jsMapSet_fresh st r1.endpoint _ hfresh
  rw [hsub1]
  have hlook : getPushSubscriptionByEndpoint
      (st ++ [(r1.endpoint, subscribedRecord r1 id1)]) r2.endpoint
      = some (subscribedRecord r1 id1) := by
    show jsMapGet (st ++ [(r1.endpoint, subscribedRecord r1 id1)]) r2.endpoint
      = some (subscribedRecord r1 id1)
    rw [hep]
    exact jsMapGet_append_self st r1.endpoint _ hfresh
  have hfind : findById (st ++ [(r1.endpoint, subscribedRecord r1 id1)]) id1
      = some (r1.endpoint, subscribedRecord r1 id1) :=
    findById_append_self st id1 (r1.endpoint, subscribedRecord r1 id1) hid rfl
  have hsub2 : subscribe (st ++ [(r1.endpoint, subscribedRecord r1 id1)]) r2 id2
      = st ++ [(r1.endpoint,
          { id := id1, endpoint := r1.endpoint, keys := r2.keys,
            lastMealTime := r2.lastMealTime, lastDailyReminder := none,
            quietHoursStart := r2.quietHoursStart, quietHoursEnd := r2.quietHoursEnd,
            language := some (r2.language.getD "en") })] := by
    unfold subscribe
    rw [hlook]
    show updatePushSubscription (st ++ [(r1.endpoint, subscribedRecord r1 id1)]) id1 _ = _
    unfold updatePushSubscription
    rw [hfind]
    show jsMapSet (st ++ [(r1.endpoint, subscribedRecord r1 id1)]) r1.endpoint
        { id := id1, endpoint := r1.endpoint, keys := r2.keys,
          lastMealTime := r2.lastMealTime, lastDailyReminder := none,
          quietHoursStart := r2.quietHoursStart, quietHoursEnd := r2.quietHoursEnd,
          language := some (r2.language.getD "en") } = _
    exact jsMapSet_append_replace st r1.endpoint (subscribedRecord r1 id1) _
      (jsMapGet_none_all_keys_ne st r1.endpoint hfresh)
  rw [hsub2]
  unfold getAllPushSubscriptions
  rw [List.map_append, List.filter_append]
  have hleft : (st.map (fun p => p.2)).filter (fun s => s.endpoint == r1.endpoint) = [] := by
    rw [List.filter_eq_nil_iff]
    intro a ha
    rcases List.mem_map.mp ha with ⟨p, hp, rfl⟩
    have h1 : (p.1 == r1.endpoint) = false :=
      jsMapGet_none_all_keys_ne st r1.endpoint hfresh p hp
    rw [← hkey p hp]
    simp [h1]
  rw [hleft]
  simp

/-- Witness for C8: two concrete subscribes on endpoint e collapse to one record
carrying the second request fields and the first create id. -/
theorem subscribe_idempotent_endpoint_witness :
  (getAllPushSubscriptions
      (subscribe (subscribe [] ⟨"e", "k1", some 5, some 1, some 2, some "de"⟩ "id1")
        ⟨"e", "k2", some 7, some 3, some 4, none⟩ "id2")).filter
      (fun s => s.endpoint == "e")
    = [{ id := "id1", endpoint := "e", keys := "k2", lastMealTime := some 7,
         lastDailyReminder := none, quietHoursStart := some 3, quietHoursEnd := some 4,
         language := some "en" }] :=
  subscribe_idempotent_endpoint [] ⟨"e", "k1", some 5, some 1, some 2, some "de"⟩
    ⟨"e", "k2", some 7, some 3, some 4, none⟩ "id1" "id2" rfl rfl
    (by intro p hp; cases hp) (by intro p hp; cases hp)

/-- Claim C9: the badge count the engine sends is the floored elapsed hour count
clamped at 99: Pass A carries it in its silent payload and Pass B in its visible
payload; any elapsed duration of at least 99 hours yields exactly 99, and any
shorter duration yields the unclamped floored hour count. -/
theorem badge_count_clamp
  (now m : Int) (s : PushSubscription)
  (hm : s.lastMealTime = some m) (hm0 : m ≠ 0) :
  ((passABadge now s).map (fun p => p.badgeCount)
      = some (some (min ((now - m).fdiv HOUR_MS) 99)))
  ∧ (∀ hist h p, passBDecision hist now h s = some p →
      p.badgeCount = some (min ((now - m).fdiv HOUR_MS) 99))
  ∧ (now - m ≥ 99 * HOUR_MS → min ((now - m).fdiv HOUR_MS) 99 = 99)
  ∧ (now - m < 99 * HOUR_MS → min ((now - m).fdiv HOUR_MS) 99 = (now - m).fdiv HOUR_MS) := by
  have hH : (0:Int) < HOUR_MS := by norm_num [HOUR_MS]
  refine ⟨?_, ?_, ?_, ?_⟩
  · unfold passABadge
    simp only [hm]
    rw [if_neg hm0]
    rfl
  · intro hist h p hp
    rw [passBDecision_payload_shape hist now h s m p hm hp]
    rfl
  · intro hge
    rw [Int.fdiv_eq_ediv _ (le_of_lt hH)]
    exact min_eq_right ((Int.le_ediv_iff_mul_le hH).mpr hge)
  · intro hlt
    rw [Int.fdiv_eq_ediv _ (le_of_lt hH)]
    exact min_eq_left (le_of_lt ((Int.ediv_lt_iff_lt_mul hH).mpr hlt))

/-- Witness for C9: one hundred elapsed hours clamp the Pass A badge to 99. -/
theorem badge_count_clamp_witness :
  ((passABadge (100 * HOUR_MS + 1) englishSub).map (fun p => p.badgeCount)
      = some (some (min (((100 * HOUR_MS + 1) - 1).fdiv HOUR_MS) 99)))
  ∧ min (((100 * HOUR_MS + 1) - 1).fdiv HOUR_MS) 99 = 99 :=
  ⟨(badge_count_clamp (100 * HOUR_MS + 1) 1 englishSub rfl (by decide)).1,
   (badge_count_clamp (100 * HOUR_MS + 1) 1 englishSub rfl (by decide)).2.2.1
     (by norm_num [HOUR_MS])⟩

/-- Claim C10: the send wrapper returns true exactly on successful delivery,
returns false without raising on any thrown failure whose status code is not
410, raises (Except.error) exactly on a thrown 410, and - having no reference
to the storage module - leaves the subscription store of any state-threaded
call unchanged. -/
theorem sendPushNotification_contract :
  sendPushNotification TransportOutcome.delivered = Except.ok true
  ∧ (∀ statusCode, statusCode ≠ some 410 →
      sendPushNotification (TransportOutcome.thrown statusCode) = Except.ok false)
  ∧ sendPushNotification (TransportOutcome.thrown (some 410)) = Except.error (some 410)
  ∧ (∀ store transport, (sendPushNotificationWithStore store transport).2 = store) := by
  refine ⟨rfl, ?_, rfl, fun _ _ => rfl⟩
  intro statusCode hc
  simp [sendPushNotification, hc]

/-- Witness for C10: a thrown 404 returns false rather than raising. -/
theorem sendPushNotification_contract_witness :
  ((some 404 : Option Int) ≠ some 410)
  ∧ sendPushNotification (TransportOutcome.thrown (some 404)) = Except.ok false :=
  ⟨by decide, sendPushNotification_contract.2.1 (some 404) (by decide)⟩
